import Mathlib

/-!
Verification development for the `sqs-orchestrator` repository.

Part 1 embeds the repository's only source file, `src/setup.py`, as data
and functions: the literal lines of the file, the Python import-fallback
control flow at its top, and the keyword arguments of the single `setup`
call.

Part 2 models the orchestration engine that the specification describes
(Lease Tracker, Supervisor outcome handling); the repository itself ships
no implementation of it, so those definitions are modelled from the
specification's words and are marked as such.
-/

namespace SqsOrchestrator

/-! ### Part 1: embedding of src/setup.py -/

/-- The sixteen physical lines of `src/setup.py`, in order.  The file does
not end with a newline character, so the final line `)` is not terminated. -/
def setupPyLines : List String :=
  [ "try:"
  , "    from setuptools import setup"
  , "except ImportError:"
  , "    from distutils.core import setup"
  , ""
  , "version = \"0.1.2\""
  , "setup("
  , "    name=\"sqs-orchestrator\","
  , "    version=version,"
  , "    author=\"Kshitij Mohan\","
  , "    author_email=\"kshitijmhn@gmail.com\","
  , "    description=(\"\"),"
  , "    license=\"BSD\","
  , "    packages=[\"sqs_orchestrator\"],"
  , "    install_requires=[\x27boto3\x27, \x27multiprocessing-logging\x27],"
  , ")" ]

/-- Join lines with a newline separator, producing the file's character
sequence; no trailing newline is appended. -/
def joinLines : List String → List Char
  | [] => []
  | [l] => l.toList
  | l :: ls => l.toList ++ '\n' :: joinLines ls

/-- The full text of `src/setup.py` as a character sequence: the lines
joined by newlines, with no trailing newline (the file is 376 bytes and
ends on the `)` character). -/
def setupPyChars : List Char := joinLines setupPyLines

/-- Line count in the `wc -l` sense: the number of newline characters in
the file.  Since `src/setup.py` has no trailing newline, this is one less
than the number of physical lines. -/
def wcLineCount (cs : List Char) : Nat := cs.count '\n'

/-- Drop leading spaces and tabs from a character list. -/
def dropLeadingWs : List Char → List Char
  | [] => []
  | c :: cs => if c = ' ' || c = '\t' then dropLeadingWs cs else c :: cs

/-- Prefix test on character lists. -/
def isPrefixChars : List Char → List Char → Bool
  | [], _ => true
  | _ :: _, [] => false
  | a :: as, b :: bs => a == b && isPrefixChars as bs

/-- Infix test on character lists. -/
def isInfixChars (sub : List Char) : List Char → Bool
  | [] => sub.isEmpty
  | c :: tail => isPrefixChars sub (c :: tail) || isInfixChars sub tail

/-- Substring test: does `sub` occur inside the character sequence `cs`? -/
def containsSub (cs : List Char) (sub : String) : Bool := isInfixChars sub.toList cs

/-- A Python source line introduces a function or type definition exactly
when, after leading whitespace, it starts with `def `, `async def ` or
`class `. -/
def definesFunctionOrClass (line : String) : Bool :=
  isPrefixChars "def ".toList (dropLeadingWs line.toList) ||
  isPrefixChars "async def ".toList (dropLeadingWs line.toList) ||
  isPrefixChars "class ".toList (dropLeadingWs line.toList)

/-- The Python exceptions relevant to the import at the top of
`src/setup.py`: `ImportError`, or any other exception. -/
inductive PyError where
  | importError
  | otherError (msg : String)
deriving DecidableEq, Repr

/-- Which module ends up providing the name `setup` in `src/setup.py`. -/
inductive SetupProvider where
  | setuptools
  | distutilsCore
deriving DecidableEq, Repr

/-- The `try: from setuptools import setup / except ImportError: from
distutils.core import setup` block of `src/setup.py`.  The argument is the
outcome of the `setuptools` import; only `ImportError` is caught, in which
case the `distutils.core` import is used; any other exception propagates. -/
def resolveSetupImport (r : Except PyError Unit) : Except PyError SetupProvider :=
  match r with
  | .ok _ => .ok .setuptools
  | .error .importError => .ok .distutilsCore
  | .error e => .error e

/-- The keyword arguments of a `setup(...)` call. -/
structure SetupArgs where
  name : String
  version : String
  author : String
  author_email : String
  description : String
  license : String
  packages : List String
  install_requires : List String
deriving DecidableEq, Repr

/-- The module-level variable `version = "0.1.2"` of `src/setup.py`. -/
def versionVar : String := "0.1.2"

/-- The literal keyword arguments of the single `setup(...)` call in
`src/setup.py`. -/
def setupCallArgs : SetupArgs :=
  { name := "sqs-orchestrator"
  , version := versionVar
  , author := "Kshitij Mohan"
  , author_email := "kshitijmhn@gmail.com"
  , description := ""
  , license := "BSD"
  , packages := ["sqs_orchestrator"]
  , install_requires := ["boto3", "multiprocessing-logging"] }

/-- The `setup(...)` call site of `src/setup.py` is textually a single call
executed after the import block, so the arguments passed do not depend on
which module provided `setup`. -/
def invokedSetupArgs (_p : SetupProvider) : SetupArgs := setupCallArgs

/-- Executing `src/setup.py`: resolve the import of `setup`, then invoke
it with the literal keyword arguments; an uncaught import exception aborts
the script before the call. -/
def runSetupScript (r : Except PyError Unit) : Except PyError SetupArgs :=
  (resolveSetupImport r).map invokedSetupArgs

end SqsOrchestrator

namespace SqsOrchestrator

/-! ### Part 2: the orchestration engine, modelled from the specification

The repository ships no orchestration code (see
`setup_py_is_packaging_manifest_only`), so the Lease Tracker and the
Supervisor transitions below are modelled from the specification's words
(sections 3, 4.2, 4.5).  Timestamps and deadlines are naturals (seconds);
message identities and receipt handles are strings. -/

/-- Modelled from the spec: the status field of a Lease — active,
extending, releasing, or expired (spec section 3). -/
inductive LeaseStatus where
  | active
  | extending
  | releasing
  | expired
deriving DecidableEq, Repr

/-- Modelled from the spec: a received Message — opaque payload, a
service-assigned receipt handle, a message identity, and an approximate
receive count (spec section 3). -/
structure Message where
  body : String
  receiptHandle : String
  messageId : String
  receiveCount : Nat
deriving DecidableEq, Repr

/-- Modelled from the spec: a Lease — receipt handle, message identity,
acquired-at timestamp, current visibility deadline, assigned worker slot,
and status (spec section 3).  The tracker-assigned `leaseId` is the lease
id the operations of spec section 4.2 take. -/
structure Lease where
  leaseId : Nat
  receiptHandle : String
  messageId : String
  acquiredAt : Nat
  deadline : Nat
  workerSlot : Option Nat
  status : LeaseStatus
deriving DecidableEq, Repr

/-- A lease counts as active for the at-most-one-active-lease invariant. -/
def Lease.isActive (l : Lease) : Bool :=
  match l.status with
  | LeaseStatus.active => true
  | _ => false

/-- A lease is live (status active or extending): the statuses in which the
deadline-monotonicity invariant applies and the Extender may update the
deadline (spec sections 3 and 4.4). -/
def Lease.isLive (l : Lease) : Bool :=
  match l.status with
  | LeaseStatus.active => true
  | LeaseStatus.extending => true
  | _ => false

/-- Modelled from the spec: the Lease Tracker, an in-memory registry of
in-flight leases (spec section 4.2); `nextId` supplies fresh lease ids. -/
structure LeaseTracker where
  leases : List Lease
  nextId : Nat
deriving DecidableEq, Repr

/-- Modelled from the spec: the error raised on a duplicate registration
attempt (spec sections 4.2 and 7 call it `DuplicateLeaseError` /
`LeaseConflictError`). -/
inductive TrackerError where
  | duplicateLeaseError
deriving DecidableEq, Repr

/-- The empty tracker: the engine starts with no in-flight leases. -/
def LeaseTracker.init : LeaseTracker := { leases := [], nextId := 0 }

/-- Modelled from the spec: `register(message, deadline) → Lease`, failing
with `DuplicateLeaseError` if the message identity is already tracked
active (spec section 4.2); on success the new lease is active, unassigned,
and tracked. -/
def LeaseTracker.register (t : LeaseTracker) (m : Message) (now deadline : Nat) :
    Except TrackerError (Lease × LeaseTracker) :=
  if t.leases.any (fun l => l.messageId == m.messageId && l.isActive) then
    Except.error TrackerError.duplicateLeaseError
  else
    let lease : Lease :=
      { leaseId := t.nextId
      , receiptHandle := m.receiptHandle
      , messageId := m.messageId
      , acquiredAt := now
      , deadline := deadline
      , workerSlot := none
      , status := LeaseStatus.active }
    Except.ok (lease, { leases := lease :: t.leases, nextId := t.nextId + 1 })

/-- The per-lease update performed by `extend`: a lease is changed only if
it has the given id and is live; its deadline is only ever moved forward,
never backward, per invariant (a) of spec section 3 (`deadline is
monotonically non-decreasing ... a deadline decrease never occurs`). -/
def extendUpd (id newDeadline : Nat) (l : Lease) : Lease :=
  if l.leaseId == id && l.isLive then
    { l with deadline := max l.deadline newDeadline }
  else l

/-- Modelled from the spec: `extend(lease_id, new_deadline)`, a no-op if
the lease is already released (absent) or not live (spec section 4.2);
otherwise the deadline is updated via `extendUpd`. -/
def LeaseTracker.extend (t : LeaseTracker) (id newDeadline : Nat) : LeaseTracker :=
  { t with leases := t.leases.map (extendUpd id newDeadline) }

/-- Modelled from the spec: `release(lease_id)` removes tracking and does
not itself call the queue service (spec section 4.2); releasing an unknown
or already-released id is not an error. -/
def LeaseTracker.release (t : LeaseTracker) (id : Nat) : LeaseTracker :=
  { t with leases := t.leases.filter (fun l => l.leaseId != id) }

/-- The per-lease update performed by `assign`: only the worker-slot field
of the lease with the given id changes. -/
def assignUpd (id slot : Nat) (l : Lease) : Lease :=
  if l.leaseId == id then { l with workerSlot := some slot } else l

/-- Modelled from the spec: the Supervisor's assignment of a lease to a
worker slot on successful `WorkerPool.submit` (`received → assigned`, spec
section 4.5). -/
def LeaseTracker.assign (t : LeaseTracker) (id slot : Nat) : LeaseTracker :=
  { t with leases := t.leases.map (assignUpd id slot) }

/-- Modelled from the spec: `expire_sweep(now) → sequence of expired Lease`
returns and removes leases whose deadline has passed without extension
(spec section 4.2). -/
def LeaseTracker.expireSweep (t : LeaseTracker) (now : Nat) :
    List Lease × LeaseTracker :=
  ( t.leases.filter (fun l => decide (l.deadline < now))
  , { t with leases := t.leases.filter (fun l => !decide (l.deadline < now)) } )

/-- The mutating Lease Tracker operations of spec section 4.2, plus the
Supervisor's assignment step; all mutations of the tracker go through
these (single-writer discipline). -/
inductive TrackerOp where
  | register (m : Message) (now deadline : Nat)
  | extend (id newDeadline : Nat)
  | release (id : Nat)
  | assign (id slot : Nat)
  | expireSweep (now : Nat)
deriving DecidableEq, Repr

/-- Apply one tracker operation to the tracker state; a failed `register`
(duplicate) leaves the state unchanged — the duplicate receive is rejected
and the original lease untouched (spec section 7). -/
def TrackerOp.apply (op : TrackerOp) (t : LeaseTracker) : LeaseTracker :=
  match op with
  | TrackerOp.register m now d =>
      match t.register m now d with
      | Except.ok (_, t') => t'
      | Except.error _ => t
  | TrackerOp.extend id nd => t.extend id nd
  | TrackerOp.release id => t.release id
  | TrackerOp.assign id slot => t.assign id slot
  | TrackerOp.expireSweep now => (t.expireSweep now).2

/-- Apply a sequence of tracker operations in order. -/
def applyOps (ops : List TrackerOp) (t : LeaseTracker) : LeaseTracker :=
  ops.foldl (fun s op => op.apply s) t

/-- A tracker state is reachable when some operation sequence produces it
from the empty initial tracker. -/
def Reachable (t : LeaseTracker) : Prop :=
  ∃ ops : List TrackerOp, applyOps ops LeaseTracker.init = t

/-- The number of active leases the tracker holds for a message identity. -/
def activeCountFor (t : LeaseTracker) (mid : String) : Nat :=
  (t.leases.filter (fun l => l.isActive && l.messageId == mid)).length

/-- Modelled from the spec: the Outcome of a handler invocation (spec
section 3). -/
inductive Outcome where
  | success
  | retryableFailure (reason : String)
  | fatalFailure (reason : String)
  | timeout
deriving DecidableEq, Repr

/-- The observable state of the orchestration engine for the claims: the
Lease Tracker plus the calls the Supervisor has issued to the Queue Client
Adapter (delete calls and dead-letter sends, as receipt handles, most
recent first). -/
structure SysState where
  tracker : LeaseTracker
  deleteCalls : List String
  deadLetterSends : List String
deriving DecidableEq, Repr

/-- The engine's initial state: empty tracker, no adapter calls issued. -/
def SysState.init : SysState :=
  { tracker := LeaseTracker.init, deleteCalls := [], deadLetterSends := [] }

/-- Modelled from the spec: the Supervisor's handling of a worker Outcome
for an assigned lease (spec section 4.5).  `success`: call `delete`, then
`release` the lease (also on delete NotFound/Expired).  `retryableFailure`
and `timeout`: `release` without deleting, except that beyond the retry
ceiling (`retriesExceeded`) the message is dead-lettered (if a dead-letter
queue is configured) and deleted.  `fatalFailure`: dead-letter then delete
if configured, else release without delete. -/
def supervisorOnOutcome (dlqConfigured retriesExceeded : Bool)
    (s : SysState) (lease : Lease) (o : Outcome) : SysState :=
  match o with
  | Outcome.success =>
      { s with
        deleteCalls := lease.receiptHandle :: s.deleteCalls
        tracker := s.tracker.release lease.leaseId }
  | Outcome.retryableFailure _ =>
      if retriesExceeded && dlqConfigured then
        { tracker := s.tracker.release lease.leaseId
        , deleteCalls := lease.receiptHandle :: s.deleteCalls
        , deadLetterSends := lease.receiptHandle :: s.deadLetterSends }
      else
        { s with tracker := s.tracker.release lease.leaseId }
  | Outcome.fatalFailure _ =>
      if dlqConfigured then
        { tracker := s.tracker.release lease.leaseId
        , deleteCalls := lease.receiptHandle :: s.deleteCalls
        , deadLetterSends := lease.receiptHandle :: s.deadLetterSends }
      else
        { s with tracker := s.tracker.release lease.leaseId }
  | Outcome.timeout =>
      if retriesExceeded && dlqConfigured then
        { tracker := s.tracker.release lease.leaseId
        , deleteCalls := lease.receiptHandle :: s.deleteCalls
        , deadLetterSends := lease.receiptHandle :: s.deadLetterSends }
      else
        { s with tracker := s.tracker.release lease.leaseId }

/-- A step of the orchestration engine: either a Lease Tracker operation
(issued by the Supervisor or the Visibility Extender) or a Supervisor
outcome transition. -/
inductive SysOp where
  | track (op : TrackerOp)
  | outcome (dlqConfigured retriesExceeded : Bool) (lease : Lease) (o : Outcome)
deriving DecidableEq, Repr

/-- Apply one engine step to the system state. -/
def SysOp.apply (op : SysOp) (s : SysState) : SysState :=
  match op with
  | SysOp.track op => { s with tracker := op.apply s.tracker }
  | SysOp.outcome dlq re lease o => supervisorOnOutcome dlq re s lease o

/-- Apply a sequence of engine steps in order. -/
def applySysOps (ops : List SysOp) (s : SysState) : SysState :=
  ops.foldl (fun s op => op.apply s) s

/-- A system state is reachable when some step sequence produces it from
the initial state. -/
def SysReachable (s : SysState) : Prop :=
  ∃ ops : List SysOp, applySysOps ops SysState.init = s

/-! #### Tracker invariants -/

/-- The at-most-one-active-lease invariant of spec section 3: no two
tracked leases are both active for the same message identity. -/
def UniqueActive (t : LeaseTracker) : Prop :=
  t.leases.Pairwise
    (fun a b => a.isActive = true → b.isActive = true → a.messageId ≠ b.messageId)

/-- Every tracked lease id is below the tracker's fresh-id counter. -/
def IdsBounded (t : LeaseTracker) : Prop :=
  ∀ l ∈ t.leases, l.leaseId < t.nextId

/-- Tracked lease ids are pairwise distinct. -/
def NodupIds (t : LeaseTracker) : Prop :=
  t.leases.Pairwise (fun a b => a.leaseId ≠ b.leaseId)

/-- The well-formedness invariant of the Lease Tracker. -/
def WF (t : LeaseTracker) : Prop :=
  IdsBounded t ∧ NodupIds t ∧ UniqueActive t

/-! #### Helper lemmas about the operations -/

lemma extendUpd_leaseId (id nd : Nat) (l : Lease) :
    (extendUpd id nd l).leaseId = l.leaseId := by
  unfold extendUpd; split <;> rfl

lemma extendUpd_messageId (id nd : Nat) (l : Lease) :
    (extendUpd id nd l).messageId = l.messageId := by
  unfold extendUpd; split <;> rfl

lemma extendUpd_isActive (id nd : Nat) (l : Lease) :
    (extendUpd id nd l).isActive = l.isActive := by
  unfold extendUpd; split <;> rfl

lemma extendUpd_deadline_le (id nd : Nat) (l : Lease) :
    l.deadline ≤ (extendUpd id nd l).deadline := by
  unfold extendUpd; split
  · exact le_max_left _ _
  · exact le_refl _

lemma assignUpd_leaseId (id slot : Nat) (l : Lease) :
    (assignUpd id slot l).leaseId = l.leaseId := by
  unfold assignUpd; split <;> rfl

lemma assignUpd_messageId (id slot : Nat) (l : Lease) :
    (assignUpd id slot l).messageId = l.messageId := by
  unfold assignUpd; split <;> rfl

lemma assignUpd_isActive (id slot : Nat) (l : Lease) :
    (assignUpd id slot l).isActive = l.isActive := by
  unfold assignUpd; split <;> rfl

lemma assignUpd_deadline (id slot : Nat) (l : Lease) :
    (assignUpd id slot l).deadline = l.deadline := by
  unfold assignUpd; split <;> rfl

/-- The lease record created by a successful `register`. -/
def freshLease (t : LeaseTracker) (m : Message) (now deadline : Nat) : Lease :=
  { leaseId := t.nextId
  , receiptHandle := m.receiptHandle
  , messageId := m.messageId
  , acquiredAt := now
  , deadline := deadline
  , workerSlot := none
  , status := LeaseStatus.active }

/-- The duplicate-registration guard of `register`. -/
def dupGuard (t : LeaseTracker) (m : Message) : Bool :=
  t.leases.any (fun l => l.messageId == m.messageId && l.isActive)

lemma register_eq (t : LeaseTracker) (m : Message) (now d : Nat) :
    t.register m now d =
      if dupGuard t m then Except.error TrackerError.duplicateLeaseError
      else Except.ok (freshLease t m now d,
        { leases := freshLease t m now d :: t.leases, nextId := t.nextId + 1 }) := by
  unfold LeaseTracker.register dupGuard freshLease
  split <;> rfl

lemma register_apply_eq (t : LeaseTracker) (m : Message) (now d : Nat) :
    TrackerOp.apply (TrackerOp.register m now d) t =
      if dupGuard t m then t
      else { leases := freshLease t m now d :: t.leases, nextId := t.nextId + 1 } := by
  show (match t.register m now d with
        | Except.ok (_, t') => t'
        | Except.error _ => t) = _
  rw [register_eq]
  by_cases h : dupGuard t m
  · simp [h]
  · simp [h]

lemma nextId_mono (op : TrackerOp) (t : LeaseTracker) :
    t.nextId ≤ (op.apply t).nextId := by
  cases op with
  | register m now d =>
      rw [register_apply_eq]
      by_cases h : dupGuard t m
      · simp [h]
      · simp [h]
  | extend id nd => exact le_refl _
  | release id => exact le_refl _
  | assign id slot => exact le_refl _
  | expireSweep now => exact le_refl _

lemma dupGuard_false_elim {t : LeaseTracker} {m : Message}
    (hg : ¬ dupGuard t m = true) :
    ∀ b ∈ t.leases, b.isActive = true → b.messageId ≠ m.messageId := by
  intro b hb hbA hbM
  apply hg
  unfold dupGuard
  rw [List.any_eq_true]
  exact ⟨b, hb, by simp [hbM, hbA]⟩

/-- Every Lease Tracker operation preserves the tracker's well-formedness
invariant (fresh ids bounded, ids distinct, at most one active lease per
message identity). -/
lemma wf_apply (op : TrackerOp) (t : LeaseTracker) (h : WF t) : WF (op.apply t) := by
  obtain ⟨hB, hN, hU⟩ := h
  cases op with
  | register m now d =>
      rw [register_apply_eq]
      by_cases hg : dupGuard t m
      · rw [if_pos hg]; exact ⟨hB, hN, hU⟩
      · rw [if_neg hg]
        refine ⟨?_, ?_, ?_⟩
        · intro l hl
          rcases List.mem_cons.mp hl with rfl | hl'
          · exact Nat.lt_succ_self _
          · exact Nat.lt_succ_of_lt (hB l hl')
        · exact List.pairwise_cons.mpr
            ⟨fun b hb => Nat.ne_of_gt (hB b hb), hN⟩
        · refine List.pairwise_cons.mpr ⟨?_, hU⟩
          intro b hb _ hbA hEq
          exact dupGuard_false_elim hg b hb hbA (hEq.symm)
  | extend id nd =>
      show WF { t with leases := t.leases.map (extendUpd id nd) }
      refine ⟨?_, ?_, ?_⟩
      · intro l' hl'
        obtain ⟨l, hl, rfl⟩ := List.mem_map.mp hl'
        rw [extendUpd_leaseId]
        exact hB l hl
      · exact List.pairwise_map.mpr (hN.imp (fun {a b} hab => by
          rw [extendUpd_leaseId, extendUpd_leaseId]; exact hab))
      · exact List.pairwise_map.mpr (hU.imp (fun {a b} hab => by
          rw [extendUpd_isActive, extendUpd_isActive,
            extendUpd_messageId, extendUpd_messageId]
          exact hab))
  | release id =>
      show WF { t with leases := t.leases.filter (fun l => l.leaseId != id) }
      exact ⟨fun l hl => hB l (List.mem_filter.mp hl).1,
        hN.sublist (List.filter_sublist _),
        hU.sublist (List.filter_sublist _)⟩
  | assign id slot =>
      show WF { t with leases := t.leases.map (assignUpd id slot) }
      refine ⟨?_, ?_, ?_⟩
      · intro l' hl'
        obtain ⟨l, hl, rfl⟩ := List.mem_map.mp hl'
        rw [assignUpd_leaseId]
        exact hB l hl
      · exact List.pairwise_map.mpr (hN.imp (fun {a b} hab => by
          rw [assignUpd_leaseId, assignUpd_leaseId]; exact hab))
      · exact List.pairwise_map.mpr (hU.imp (fun {a b} hab => by
          rw [assignUpd_isActive, assignUpd_isActive,
            assignUpd_messageId, assignUpd_messageId]
          exact hab))
  | expireSweep now =>
      show WF { t with leases := t.leases.filter (fun l => !decide (l.deadline < now)) }
      exact ⟨fun l hl => hB l (List.mem_filter.mp hl).1,
        hN.sublist (List.filter_sublist _),
        hU.sublist (List.filter_sublist _)⟩

lemma wf_applyOps : ∀ (ops : List TrackerOp) (t : LeaseTracker), WF t → WF (applyOps ops t)
  | [], _, h => h
  | op :: ops, t, h => wf_applyOps ops (op.apply t) (wf_apply op t h)

lemma wf_init : WF LeaseTracker.init :=
  ⟨fun l hl => absurd hl (List.not_mem_nil l), List.Pairwise.nil, List.Pairwise.nil⟩

lemma wf_reachable {t : LeaseTracker} (h : Reachable t) : WF t := by
  obtain ⟨ops, rfl⟩ := h
  exact wf_applyOps ops LeaseTracker.init wf_init

/-- Every branch of the Supervisor's outcome handling affects the tracker
only by releasing the lease in question. -/
lemma onOutcome_tracker (dlq re : Bool) (s : SysState) (lease : Lease) (o : Outcome) :
    (supervisorOnOutcome dlq re s lease o).tracker = s.tracker.release lease.leaseId := by
  cases o <;> simp only [supervisorOnOutcome] <;> (try split) <;> rfl

lemma sysop_wf (op : SysOp) (s : SysState) (h : WF s.tracker) : WF (op.apply s).tracker := by
  cases op with
  | track top => exact wf_apply top s.tracker h
  | outcome dlq re lease o =>
      show WF (supervisorOnOutcome dlq re s lease o).tracker
      rw [onOutcome_tracker]
      exact wf_apply (TrackerOp.release lease.leaseId) s.tracker h

lemma sys_wf_applyOps : ∀ (ops : List SysOp) (s : SysState),
    WF s.tracker → WF (applySysOps ops s).tracker
  | [], _, h => h
  | op :: ops, s, h => sys_wf_applyOps ops (op.apply s) (sysop_wf op s h)

lemma sys_wf_reachable {s : SysState} (h : SysReachable s) : WF s.tracker := by
  obtain ⟨ops, rfl⟩ := h
  exact sys_wf_applyOps ops SysState.init wf_init

lemma filter_length_le_one {α : Type} (p : α → Bool) :
    ∀ L : List α, L.Pairwise (fun a b => ¬(p a = true ∧ p b = true)) →
      (L.filter p).length ≤ 1
  | [], _ => by simp
  | a :: L, h => by
      obtain ⟨h1, h2⟩ := List.pairwise_cons.mp h
      by_cases hp : p a = true
      · have hrest : L.filter p = [] :=
          List.filter_eq_nil_iff.mpr (fun x hx hpx => h1 x hx ⟨hp, hpx⟩)
        simp [List.filter_cons, hp, hrest]
      · simpa [List.filter_cons, hp] using filter_length_le_one p L h2

lemma activeCount_le_one_of_unique {t : LeaseTracker} (hU : UniqueActive t)
    (mid : String) : activeCountFor t mid ≤ 1 := by
  unfold activeCountFor
  apply filter_length_le_one
  refine hU.imp (fun {a b} hab => ?_)
  rintro ⟨ha, hb⟩
  rw [Bool.and_eq_true] at ha hb
  exact hab ha.1 hb.1 (by rw [eq_of_beq ha.2, eq_of_beq hb.2])

lemma pairwise_key_inj {α κ : Type} (f : α → κ) :
    ∀ (L : List α), L.Pairwise (fun a b => f a ≠ f b) →
      ∀ a ∈ L, ∀ b ∈ L, f a = f b → a = b
  | [], _, a, ha, _, _, _ => absurd ha (List.not_mem_nil a)
  | c :: L, h, a, ha, b, hb, hEq => by
      obtain ⟨h1, h2⟩ := List.pairwise_cons.mp h
      rcases List.mem_cons.mp ha with rfl | ha'
      · rcases List.mem_cons.mp hb with rfl | hb'
        · rfl
        · exact absurd hEq (h1 b hb')
      · rcases List.mem_cons.mp hb with rfl | hb'
        · exact absurd hEq.symm (h1 a ha')
        · exact pairwise_key_inj f L h2 a ha' b hb' hEq

/-- One operation, read backwards: any tracked lease whose id predates the
operation descends from a tracked lease with the same id and a deadline
that is no larger. -/
lemma deadline_backward_step (op : TrackerOp) (t : LeaseTracker) :
    ∀ l' ∈ (op.apply t).leases, l'.leaseId < t.nextId →
      ∃ l ∈ t.leases, l.leaseId = l'.leaseId ∧ l.deadline ≤ l'.deadline := by
  cases op with
  | register m now d =>
      rw [register_apply_eq]
      by_cases hg : dupGuard t m
      · rw [if_pos hg]
        exact fun l' hl' _ => ⟨l', hl', rfl, le_refl _⟩
      · rw [if_neg hg]
        intro l' hl' hlt
        rcases List.mem_cons.mp hl' with rfl | hl''
        · exact absurd hlt (lt_irrefl _)
        · exact ⟨l', hl'', rfl, le_refl _⟩
  | extend id nd =>
      show ∀ l' ∈ (t.leases.map (extendUpd id nd)), _ → _
      intro l' hl' _
      obtain ⟨l, hl, rfl⟩ := List.mem_map.mp hl'
      exact ⟨l, hl, (extendUpd_leaseId id nd l).symm, extendUpd_deadline_le id nd l⟩
  | release id =>
      exact fun l' hl' _ => ⟨l', (List.mem_filter.mp hl').1, rfl, le_refl _⟩
  | assign id slot =>
      show ∀ l' ∈ (t.leases.map (assignUpd id slot)), _ → _
      intro l' hl' _
      obtain ⟨l, hl, rfl⟩ := List.mem_map.mp hl'
      exact ⟨l, hl, (assignUpd_leaseId id slot l).symm,
        le_of_eq (assignUpd_deadline id slot l).symm⟩
  | expireSweep now =>
      exact fun l' hl' _ => ⟨l', (List.mem_filter.mp hl').1, rfl, le_refl _⟩

/-- A whole operation sequence, read backwards: a tracked lease whose id
predates the sequence descends from a lease with the same id and a
deadline that is no larger. -/
lemma deadline_backward : ∀ (ops : List TrackerOp) (t : LeaseTracker),
    ∀ l' ∈ (applyOps ops t).leases, l'.leaseId < t.nextId →
      ∃ l ∈ t.leases, l.leaseId = l'.leaseId ∧ l.deadline ≤ l'.deadline
  | [], _ => fun l' hl' _ => ⟨l', hl', rfl, le_refl _⟩
  | op :: ops, t => by
      intro l' hl' hlt
      have hlt' : l'.leaseId < (op.apply t).nextId :=
        lt_of_lt_of_le hlt (nextId_mono op t)
      obtain ⟨l₁, hl₁, hid₁, hd₁⟩ := deadline_backward ops (op.apply t) l' hl' hlt'
      have hlt₁ : l₁.leaseId < t.nextId := by rw [hid₁]; exact hlt
      obtain ⟨l₀, hl₀, hid₀, hd₀⟩ := deadline_backward_step op t l₁ hl₁ hlt₁
      exact ⟨l₀, hl₀, by rw [hid₀, hid₁], le_trans hd₀ hd₁⟩

/-! #### The claims -/

set_option maxRecDepth 32768

/-- C1: the entire source of the repository is `src/setup.py`, a packaging
manifest of 15 lines (`wc -l` count: the file has 15 newline characters and
no trailing newline), and it contains no orchestration logic: no line
defines a Python function or class (so no Supervisor, Lease Tracker, Worker
Pool, Visibility Extender, or Queue Client Adapter implementation exists),
and none of those component names even occurs in the text. -/
theorem setup_py_is_packaging_manifest_only :
    wcLineCount setupPyChars = 15 ∧
    setupPyLines.all (fun l => !definesFunctionOrClass l) = true ∧
    containsSub setupPyChars "def " = false ∧
    containsSub setupPyChars "class " = false ∧
    containsSub setupPyChars "Supervisor" = false ∧
    containsSub setupPyChars "Lease" = false ∧
    containsSub setupPyChars "Worker" = false ∧
    containsSub setupPyChars "Extender" = false ∧
    containsSub setupPyChars "Adapter" = false := by
  refine ⟨by decide, by decide, by decide, by decide, by decide, by decide,
    by decide, by decide, by decide⟩

/-- C2: the `setup` call of `src/setup.py` passes exactly the two
install-time dependencies `boto3` and `multiprocessing-logging`, in that
order, as `install_requires`, and this is the value passed no matter which
module provided `setup`. -/
theorem install_requires_is_boto3_then_mpl :
    setupCallArgs.install_requires = ["boto3", "multiprocessing-logging"] ∧
    ∀ p : SetupProvider,
      (invokedSetupArgs p).install_requires = ["boto3", "multiprocessing-logging"] :=
  ⟨rfl, fun _ => rfl⟩

/-- C9: if importing `setup` from `setuptools` raises `ImportError`, the
script falls back to `distutils.core` and the `setup` call is made with the
identical keyword arguments as in the success case; any exception other
than `ImportError` is not caught and propagates. -/
theorem import_fallback_behaviour :
    resolveSetupImport (Except.error PyError.importError)
      = Except.ok SetupProvider.distutilsCore ∧
    (∀ m : String, resolveSetupImport (Except.error (PyError.otherError m))
      = Except.error (PyError.otherError m)) ∧
    runSetupScript (Except.ok ()) = Except.ok setupCallArgs ∧
    runSetupScript (Except.error PyError.importError) = Except.ok setupCallArgs :=
  ⟨rfl, fun _ => rfl, rfl, rfl⟩

/-- C10: the `setup` call of `src/setup.py` is invoked with the fixed
literal metadata `name="sqs-orchestrator"`, `version="0.1.2"`,
`license="BSD"`, an empty description, and the single package
`sqs_orchestrator`; the arguments are the same constant record regardless
of which module provided `setup`. -/
theorem setup_metadata_is_constant :
    setupCallArgs.name = "sqs-orchestrator" ∧
    setupCallArgs.version = "0.1.2" ∧
    setupCallArgs.license = "BSD" ∧
    setupCallArgs.description = "" ∧
    setupCallArgs.packages = ["sqs_orchestrator"] ∧
    ∀ p : SetupProvider, invokedSetupArgs p = setupCallArgs :=
  ⟨rfl, rfl, rfl, rfl, rfl, fun _ => rfl⟩

/-- C3: in every reachable state of the orchestration engine — reachable
through any sequence of Lease Tracker operations (register, extend,
release, assign, expire_sweep) and Supervisor outcome transitions — at
most one active Lease exists for any message identity. -/
theorem at_most_one_active_lease_per_message (s : SysState) (h : SysReachable s)
    (mid : String) : activeCountFor s.tracker mid ≤ 1 :=
  activeCount_le_one_of_unique (sys_wf_reachable h).2.2 mid

/-- Concrete instance of C3: after registering two messages with the same
identity (the second registration is rejected as a duplicate), the tracker
holds at most one active lease for that identity. -/
theorem at_most_one_active_lease_per_message_witness :
    activeCountFor (applySysOps
      [ SysOp.track (TrackerOp.register ⟨"b1", "rh1", "m1", 1⟩ 0 30)
      , SysOp.track (TrackerOp.register ⟨"b2", "rh2", "m1", 1⟩ 1 31) ]
      SysState.init).tracker "m1" ≤ 1 :=
  at_most_one_active_lease_per_message _ ⟨_, rfl⟩ "m1"

/-- C4: for every lease tracked in a reachable state (in particular while
its status is active or extending), its visibility deadline is
monotonically non-decreasing across every sequence of operations: any
later tracked lease with the same lease id has a deadline at least as
large — no operation ever sets a smaller deadline than the current one. -/
theorem lease_deadline_monotone (t : LeaseTracker) (h : Reachable t)
    (ops : List TrackerOp) (l l' : Lease) (hl : l ∈ t.leases)
    (_hstat : l.status = LeaseStatus.active ∨ l.status = LeaseStatus.extending)
    (hl' : l' ∈ (applyOps ops t).leases) (hid : l'.leaseId = l.leaseId) :
    l.deadline ≤ l'.deadline := by
  obtain ⟨hB, hN, _⟩ := wf_reachable h
  have hlt : l'.leaseId < t.nextId := by rw [hid]; exact hB l hl
  obtain ⟨l₁, hl₁, hid₁, hd₁⟩ := deadline_backward ops t l' hl' hlt
  have hEq : l₁ = l :=
    pairwise_key_inj Lease.leaseId t.leases hN l₁ hl₁ l hl (hid₁.trans hid)
  rw [← hEq]
  exact hd₁

/-- Concrete instance of C4: a registered lease with deadline 5, after an
extension to 99, still has a deadline at least 5. -/
theorem lease_deadline_monotone_witness :
    (⟨0, "rh1", "m1", 0, 5, none, LeaseStatus.active⟩ : Lease).deadline ≤
      (⟨0, "rh1", "m1", 0, 99, none, LeaseStatus.active⟩ : Lease).deadline :=
  lease_deadline_monotone
    (applyOps [TrackerOp.register ⟨"b1", "rh1", "m1", 1⟩ 0 5] LeaseTracker.init)
    ⟨_, rfl⟩ [TrackerOp.extend 0 99] _ _ (by decide) (Or.inl rfl) (by decide) rfl

/-- C5: when a message identity is already tracked by an active lease,
`register` for that identity fails with `DuplicateLeaseError`, and the
failed call leaves the tracker unchanged (the original lease untouched). -/
theorem register_duplicate_fails (t : LeaseTracker) (m : Message) (now d : Nat)
    (l : Lease) (hl : l ∈ t.leases) (hA : l.isActive = true)
    (hM : l.messageId = m.messageId) :
    t.register m now d = Except.error TrackerError.duplicateLeaseError ∧
    TrackerOp.apply (TrackerOp.register m now d) t = t := by
  have hg : dupGuard t m = true := by
    unfold dupGuard
    rw [List.any_eq_true]
    exact ⟨l, hl, by simp [hM, hA]⟩
  constructor
  · rw [register_eq, if_pos hg]
  · rw [register_apply_eq, if_pos hg]

/-- Concrete instance of C5: registering a second message with identity
`m1` while an active lease for `m1` is tracked fails and changes nothing. -/
theorem register_duplicate_fails_witness :
    ({ leases := [⟨0, "rh1", "m1", 0, 30, none, LeaseStatus.active⟩], nextId := 1 }
        : LeaseTracker).register ⟨"b2", "rh2", "m1", 1⟩ 1 31
      = Except.error TrackerError.duplicateLeaseError ∧
    TrackerOp.apply (TrackerOp.register ⟨"b2", "rh2", "m1", 1⟩ 1 31)
        { leases := [⟨0, "rh1", "m1", 0, 30, none, LeaseStatus.active⟩], nextId := 1 }
      = { leases := [⟨0, "rh1", "m1", 0, 30, none, LeaseStatus.active⟩], nextId := 1 } :=
  register_duplicate_fails _ _ 1 31
    ⟨0, "rh1", "m1", 0, 30, none, LeaseStatus.active⟩ (by decide) rfl rfl

/-- C6: `release` is idempotent — releasing the same lease id twice yields
the same tracker state as releasing it once; `release` is total, so the
second call raises no error. -/
theorem release_idempotent (t : LeaseTracker) (id : Nat) :
    (t.release id).release id = t.release id := by
  unfold LeaseTracker.release
  simp [List.filter_filter]

/-- C7: a lease whose deadline is strictly in the past at `now` is reported
exactly once and removed by `expire_sweep(now)`, and no later sweep reports
it again. -/
theorem expire_sweep_exactly_once (t : LeaseTracker) (h : Reachable t)
    (now now' : Nat) (l : Lease) (hl : l ∈ t.leases) (hd : l.deadline < now) :
    (t.expireSweep now).1.count l = 1 ∧
    l ∉ (t.expireSweep now).2.leases ∧
    l ∉ ((t.expireSweep now).2.expireSweep now').1 := by
  obtain ⟨_, hN, _⟩ := wf_reachable h
  have hnodup : t.leases.Nodup :=
    hN.imp (fun {a b} hab hEq => hab (by rw [hEq]))
  have hnot : l ∉ (t.expireSweep now).2.leases := by
    intro hmem
    have h2 := (List.mem_filter.mp hmem).2
    rw [decide_eq_true hd] at h2
    exact Bool.false_ne_true h2
  refine ⟨?_, hnot, ?_⟩
  · have hmem : l ∈ t.leases.filter (fun x => decide (x.deadline < now)) :=
      List.mem_filter.mpr ⟨hl, decide_eq_true hd⟩
    exact List.count_eq_one_of_mem
      (List.Pairwise.sublist (List.filter_sublist _) hnodup) hmem
  · intro hmem
    exact hnot ((List.mem_filter.mp hmem).1)

/-- Concrete instance of C7: a lease with deadline 5 swept at time 10 is
reported once, removed, and not reported by a second sweep at time 11. -/
theorem expire_sweep_exactly_once_witness :
    ((applyOps [TrackerOp.register ⟨"b1", "rh1", "m1", 1⟩ 0 5]
        LeaseTracker.init).expireSweep 10).1.count
      ⟨0, "rh1", "m1", 0, 5, none, LeaseStatus.active⟩ = 1 ∧
    (⟨0, "rh1", "m1", 0, 5, none, LeaseStatus.active⟩ : Lease) ∉
      ((applyOps [TrackerOp.register ⟨"b1", "rh1", "m1", 1⟩ 0 5]
        LeaseTracker.init).expireSweep 10).2.leases ∧
    (⟨0, "rh1", "m1", 0, 5, none, LeaseStatus.active⟩ : Lease) ∉
      (((applyOps [TrackerOp.register ⟨"b1", "rh1", "m1", 1⟩ 0 5]
        LeaseTracker.init).expireSweep 10).2.expireSweep 11).1 :=
  expire_sweep_exactly_once _ ⟨_, rfl⟩ 10 11 _ (by decide) (by decide)

/-- C8: a message that is received and registered (producing a lease),
assigned to a worker, and completed with a `success` Outcome results in
exactly one delete call to the queue adapter for that message's receipt
handle, and zero remaining Lease Tracker entries for its identity. -/
theorem success_roundtrip (s : SysState) (m : Message) (now d slot : Nat)
    (lease : Lease) (t1 : LeaseTracker) (dlq re : Bool)
    (hreg : s.tracker.register m now d = Except.ok (lease, t1))
    (hfresh : ∀ l ∈ s.tracker.leases, l.messageId ≠ m.messageId) :
    (supervisorOnOutcome dlq re { s with tracker := t1.assign lease.leaseId slot }
        lease Outcome.success).deleteCalls.count m.receiptHandle
      = s.deleteCalls.count m.receiptHandle + 1 ∧
    ((supervisorOnOutcome dlq re { s with tracker := t1.assign lease.leaseId slot }
        lease Outcome.success).tracker.leases.filter
      (fun l => l.messageId == m.messageId)).length = 0 := by
  rw [register_eq] at hreg
  by_cases hg : dupGuard s.tracker m
  · rw [if_pos hg] at hreg
    exact absurd hreg (by simp)
  · rw [if_neg hg] at hreg
    simp only [Except.ok.injEq, Prod.mk.injEq] at hreg
    obtain ⟨hlease, ht1⟩ := hreg
    subst hlease
    subst ht1
    constructor
    · simp only [supervisorOnOutcome]
      exact List.count_cons_self _ _
    · simp only [supervisorOnOutcome, LeaseTracker.assign, LeaseTracker.release]
      rw [List.length_eq_zero]
      apply List.filter_eq_nil_iff.mpr
      intro x hx hbeq
      have hq := (List.mem_filter.mp hx).2
      have hxm := (List.mem_filter.mp hx).1
      rw [List.map_cons] at hxm
      rcases List.mem_cons.mp hxm with rfl | hxm'
      · rw [bne_iff_ne] at hq
        exact hq (assignUpd_leaseId _ _ _)
      · obtain ⟨y, hy, rfl⟩ := List.mem_map.mp hxm'
        have h1 := assignUpd_messageId
          (freshLease s.tracker m now d).leaseId slot y
        exact hfresh y hy (h1 ▸ eq_of_beq hbeq)

/-- Concrete instance of C8: a fresh message round-tripped through
register, assign, and a `success` outcome yields one delete call for its
receipt handle and an empty set of tracker entries for its identity. -/
theorem success_roundtrip_witness :
    (supervisorOnOutcome false false
        { SysState.init with
          tracker := ({ leases := [⟨0, "rh1", "m1", 0, 30, none, LeaseStatus.active⟩]
                      , nextId := 1 } : LeaseTracker).assign
            (⟨0, "rh1", "m1", 0, 30, none, LeaseStatus.active⟩ : Lease).leaseId 2 }
        ⟨0, "rh1", "m1", 0, 30, none, LeaseStatus.active⟩
        Outcome.success).deleteCalls.count
      (⟨"b1", "rh1", "m1", 1⟩ : Message).receiptHandle
      = SysState.init.deleteCalls.count
          (⟨"b1", "rh1", "m1", 1⟩ : Message).receiptHandle + 1 ∧
    ((supervisorOnOutcome false false
        { SysState.init with
          tracker := ({ leases := [⟨0, "rh1", "m1", 0, 30, none, LeaseStatus.active⟩]
                      , nextId := 1 } : LeaseTracker).assign
            (⟨0, "rh1", "m1", 0, 30, none, LeaseStatus.active⟩ : Lease).leaseId 2 }
        ⟨0, "rh1", "m1", 0, 30, none, LeaseStatus.active⟩
        Outcome.success).tracker.leases.filter
      (fun l => l.messageId == (⟨"b1", "rh1", "m1", 1⟩ : Message).messageId)).length = 0 :=
  success_roundtrip SysState.init ⟨"b1", "rh1", "m1", 1⟩ 0 30 2
    ⟨0, "rh1", "m1", 0, 30, none, LeaseStatus.active⟩
    { leases := [⟨0, "rh1", "m1", 0, 30, none, LeaseStatus.active⟩], nextId := 1 }
    false false rfl (fun l hl => absurd hl (List.not_mem_nil l))

end SqsOrchestrator
